import Mathlib

/-!
Verification development for the relational-schema explorer of the
user-management dashboard.

The TypeScript route handlers are shallowly embedded as pure Lean functions
over an explicit database state.  Each `db.query(sqlString, params)` call of
the source becomes (a) the SQL string the handler builds, appended to an
execution trace, and (b) a Lean computation of that specific query's result
over the modelled store.  Modelling conventions:

* Machine scalars (SQL values, JS numbers used as counts/pages) are `Int`;
  timestamps are seconds since an arbitrary epoch.
* Whitespace inside the modelled SQL strings is normalised to single spaces
  and SQL string-literal quote marks are omitted; the identifiers that the
  source interpolates into each string are concatenated exactly as in the
  source, which is what the injection-related claims are about.
* Only ASCII case mapping is modelled for toLowerCase/toUpperCase/ILIKE,
  matching the identifiers and search strings the claims quantify over.
* The session check shared by every handler (401 when unauthenticated) is
  outside the claims; the handlers are modelled post-authentication.
* A store failure surfaces as HTTP status 500, a missing table or row as
  404, mirroring the catch blocks of the source.
-/

/-- A SQL scalar value as the JS driver presents it: string, number,
boolean or NULL. -/
inductive Value where
  | vstr (s : String)
  | vint (n : Int)
  | vbool (b : Bool)
  | vnull
deriving Repr, DecidableEq

/-- A row, as the driver returns it: an ordered mapping from column name to
scalar value. -/
abbrev Record := List (String × Value)

/-- One entry of the information_schema column listing for a table. -/
structure Column where
  column_name : String
  data_type : String
deriving Repr, DecidableEq

/-- A base table of the public schema together with its declared columns
(in ordinal position order) and its current rows. -/
structure Table where
  name : String
  columns : List Column
  rows : List Record
deriving Repr, DecidableEq

/-- One single-column foreign-key edge as produced by the
information_schema join of the source (one row per constrained column). -/
structure ForeignKey where
  from_table : String
  from_column : String
  to_table : String
  to_column : String
  constraint_name : String
deriving Repr, DecidableEq

/-- The record store reachable through the connection pool: the base tables
of the public schema, the foreign-key constraints, and the current clock
(seconds, for NOW() arithmetic). -/
structure DB where
  tables : List Table
  fks : List ForeignKey
  now : Int
deriving Repr, DecidableEq

/-- Field access `row[col]` of the driver row object: the first binding for
the column name, `none` when the property is absent (JS `undefined`). -/
def getCol (r : Record) (c : String) : Option Value :=
  (r.find? (fun kv => kv.1 == c)).map (fun kv => kv.2)

/-- Resolution of a table name against the store. -/
def findTable (db : DB) (t : String) : Option Table :=
  db.tables.find? (fun tbl => tbl.name == t)

/-- JS truthiness of a scalar value (`if (foreignKeyValue)` in the source):
null, 0, the empty string and false are falsy. -/
def truthyV : Value → Bool
  | .vstr s => !(s == "")
  | .vint n => !(n == 0)
  | .vbool b => b
  | .vnull => false

/-- JS truthiness of a possibly-absent property (`undefined` is falsy). -/
def truthy : Option Value → Bool
  | none => false
  | some v => truthyV v

/-- ASCII lower-casing of one character, the fragment of JS toLowerCase and
SQL lower() that the modelled identifiers and search strings exercise. -/
def lowerChar (c : Char) : Char :=
  match c with
  | 'A' => 'a' | 'B' => 'b' | 'C' => 'c' | 'D' => 'd' | 'E' => 'e'
  | 'F' => 'f' | 'G' => 'g' | 'H' => 'h' | 'I' => 'i' | 'J' => 'j'
  | 'K' => 'k' | 'L' => 'l' | 'M' => 'm' | 'N' => 'n' | 'O' => 'o'
  | 'P' => 'p' | 'Q' => 'q' | 'R' => 'r' | 'S' => 's' | 'T' => 't'
  | 'U' => 'u' | 'V' => 'v' | 'W' => 'w' | 'X' => 'x' | 'Y' => 'y'
  | 'Z' => 'z'
  | c => c

/-- ASCII upper-casing of one character (for sortOrder.toUpperCase()). -/
def upperChar (c : Char) : Char :=
  match c with
  | 'a' => 'A' | 'b' => 'B' | 'c' => 'C' | 'd' => 'D' | 'e' => 'E'
  | 'f' => 'F' | 'g' => 'G' | 'h' => 'H' | 'i' => 'I' | 'j' => 'J'
  | 'k' => 'K' | 'l' => 'L' | 'm' => 'M' | 'n' => 'N' | 'o' => 'O'
  | 'p' => 'P' | 'q' => 'Q' | 'r' => 'R' | 's' => 'S' | 't' => 'T'
  | 'u' => 'U' | 'v' => 'V' | 'w' => 'W' | 'x' => 'X' | 'y' => 'Y'
  | 'z' => 'Z'
  | c => c

/-- Character-list lower-casing. -/
def lowerList (l : List Char) : List Char := l.map lowerChar

/-- JS String.prototype.toLowerCase restricted to ASCII. -/
def lowerStr (s : String) : String := ⟨lowerList s.toList⟩

/-- JS String.prototype.toUpperCase restricted to ASCII. -/
def upperStr (s : String) : String := ⟨s.toList.map upperChar⟩

/-- Does the pattern (read literally) match a prefix of the string? -/
def prefMatch : List Char → List Char → Bool
  | [], _ => true
  | _ :: _, [] => false
  | c :: p, a :: s => decide (a = c) && prefMatch p s

/-- Does the pattern (read literally) occur as a contiguous substring? -/
def subOccurs : List Char → List Char → Bool
  | p, [] => p.isEmpty
  | p, a :: s => prefMatch p (a :: s) || subOccurs p s

/-- Does the needle occur as a substring of the haystack? -/
def occursIn (needle hay : String) : Bool := subOccurs needle.toList hay.toList

/-- Case-insensitive substring containment, the reading of contains used by
the search invariant of the specification. -/
def containsCI (needle hay : String) : Bool :=
  subOccurs (lowerList needle.toList) (lowerList hay.toList)

/-- Fuel-indexed SQL LIKE matching: percent matches any sequence,
underscore any single character, backslash escapes the next pattern
character; every other character matches itself.  Each recursive call
consumes one unit of fuel and shrinks pattern+string, so
`likeMatch` below always supplies enough fuel. -/
def likeAux : Nat → List Char → List Char → Bool
  | 0, _, _ => false
  | _ + 1, [], [] => true
  | _ + 1, [], _ :: _ => false
  | f + 1, '%' :: p, [] => likeAux f p []
  | f + 1, '%' :: p, a :: s => likeAux f p (a :: s) || likeAux f ('%' :: p) s
  | _ + 1, '_' :: _, [] => false
  | f + 1, '_' :: p, _ :: s => likeAux f p s
  | _ + 1, '\\' :: _, [] => false
  | _ + 1, '\\' :: [], _ :: _ => false
  | f + 1, '\\' :: c2 :: p2, a :: s => decide (a = c2) && likeAux f p2 s
  | _ + 1, _ :: _, [] => false
  | f + 1, c :: p, a :: s => decide (a = c) && likeAux f p s

/-- SQL LIKE matching of a pattern against a string. -/
def likeMatch (p s : List Char) : Bool := likeAux (p.length + s.length + 1) p s

/-- SQL ILIKE: LIKE after lower-casing both sides. -/
def ilike (pat v : String) : Bool :=
  likeMatch (lowerList pat.toList) (lowerList v.toList)

/-- The text rendering the cast col::text produces for a stored value;
`none` is SQL NULL (the cast of NULL stays NULL and never matches). -/
def renderValue : Value → Option String
  | .vstr s => some s
  | .vint n => some (toString n)
  | .vbool b => some (if b then "true" else "false")
  | .vnull => none

/-- Does one column of a row satisfy the parameterised predicate
col::text ILIKE percent-search-percent built by the source? -/
def colMatches (search : String) (ov : Option Value) : Bool :=
  match ov with
  | none => false
  | some v =>
    match renderValue v with
    | none => false
    | some txt => ilike ("%" ++ search ++ "%") txt


/-- The parameterised table-existence query of the listing route; the table
name travels as the bound parameter, never inside the string. -/
def tableCheckQuery : String :=
  "SELECT table_name FROM information_schema.tables WHERE table_schema = public AND table_name = $1"

/-- The maintenance DELETE issued before reads of the otps table. -/
def otpCleanupQuery : String :=
  "DELETE FROM otps WHERE created_at < NOW() - INTERVAL 3 days"

/-- The parameterised column-metadata query of the listing route. -/
def columnsQuery : String :=
  "SELECT column_name, data_type FROM information_schema.columns WHERE table_name = $1 ORDER BY ordinal_position"

/-- The COUNT query of the listing route: the table name and the search
condition (with its column names) are interpolated. -/
def countQueryStr (table cond : String) : String :=
  "SELECT COUNT(*) FROM " ++ table ++ " " ++ cond

/-- The data query of the listing route: table, search condition, sort
column and sort order are interpolated; limit and offset are the bound
parameters numbered after the search parameters. -/
def dataQueryStr (table cond sortCol sortOrd : String) (k : Nat) : String :=
  "SELECT * FROM " ++ table ++ " " ++ cond ++ " ORDER BY " ++ sortCol ++ " " ++ sortOrd ++
    " LIMIT $" ++ toString (k + 1) ++ " OFFSET $" ++ toString (k + 2)

/-- The main-record query of the relationship route: the table name is
interpolated, the id travels as the bound parameter. -/
def mainRecordQuery (table : String) : String :=
  "SELECT * FROM " ++ table ++ " WHERE id = $1"

/-- The related-rows query of the relationship route: table and column are
interpolated, the compared value is the bound parameter. -/
def relatedQuery (t c : String) : String :=
  "SELECT * FROM " ++ t ++ " WHERE " ++ c ++ " = $1"

/-- The parameterised foreign-key discovery query of the relationship
route (information_schema joins; the table name is the bound parameter). -/
def fkIncidentQuery : String :=
  "SELECT tc.table_name, kcu.column_name, ccu.table_name, ccu.column_name, tc.constraint_name FROM information_schema joins WHERE constraint_type = FOREIGN KEY AND table_schema = public AND (tc.table_name = $1 OR ccu.table_name = $1)"

/-- The static foreign-key listing query of the relationships route. -/
def fkAllQuery : String :=
  "SELECT tc.table_name, kcu.column_name, ccu.table_name, ccu.column_name, tc.constraint_name FROM information_schema joins WHERE constraint_type = FOREIGN KEY AND table_schema = public ORDER BY tc.table_name, kcu.column_name"

/-- The static table listing query (both variants issue it first). -/
def tablesQuery : String :=
  "SELECT table_name, column_count FROM information_schema.tables t WHERE table_schema = public AND table_type = BASE TABLE ORDER BY table_name"

/-- The per-table row-count query of the second table-listing variant; the
table name is interpolated inside double quotes. -/
def rowCountQuery (t : String) : String :=
  "SELECT COUNT(*) as row_count FROM \"" ++ t ++ "\""

/-- The declared types the source treats as text-like for search. -/
def textTypes : List String := [ "character varying", "text", "character"]

/-- The columns of the table that participate in the search predicate. -/
def textColumns (cols : List Column) : List Column :=
  cols.filter (fun c => textTypes.contains c.data_type)

/-- The WHERE fragment the source builds for a non-empty search: one
parameterised ILIKE per text-like column, OR-joined; empty when the search
is empty or no text-like column exists. -/
def searchCondition (cols : List Column) (search : String) : String :=
  if search == "" then ""
  else
    let parts := (textColumns cols).enum.map
      (fun ic => ic.2.column_name ++ "::text ILIKE $" ++ toString (ic.1 + 1))
    if parts.isEmpty then "" else "WHERE " ++ String.intercalate " OR " parts

/-- How many search parameters precede the limit/offset parameters. -/
def searchParamCount (cols : List Column) (search : String) : Nat :=
  if search == "" then 0 else (textColumns cols).length

/-- Does a row satisfy the OR of the per-column ILIKE predicates? -/
def rowMatchesSearch (cols : List Column) (search : String) (r : Record) : Bool :=
  (textColumns cols).any (fun c => colMatches search (getCol r c.column_name))

/-- The rows the WHERE clause keeps: everything when the search is empty or
contributes no condition, otherwise the ILIKE filter. -/
def filterRows (cols : List Column) (search : String) (rows : List Record) : List Record :=
  if search == "" || (textColumns cols).isEmpty then rows
  else rows.filter (rowMatchesSearch cols search)

/-- The sort column actually used: the requested one when it is among the
table columns, otherwise the first declared column (JS columns[0];
interpolating the undefined of an empty list prints undefined). -/
def validSortBy (columns : List String) (sortBy : String) : String :=
  if columns.contains sortBy then sortBy else columns.headD "undefined"

/-- Lexicographic comparison of character lists (the model order used for
ORDER BY; no claim depends on the specific collation). -/
def charListLe : List Char → List Char → Bool
  | [], _ => true
  | _ :: _, [] => false
  | a :: s, b :: t => if a = b then charListLe s t else decide (a.toNat < b.toNat)

/-- Comparison of table names for ORDER BY table_name. -/
def strLeb (s t : String) : Bool := charListLe s.toList t.toList

/-- Rank used to order values of different shapes (model order). -/
def valueRank : Value → Nat
  | .vint _ => 0
  | .vstr _ => 1
  | .vbool _ => 2
  | .vnull => 3

/-- Model total order on stored values for ORDER BY. -/
def valueLe (v w : Value) : Bool :=
  match v, w with
  | .vint m, .vint n => decide (m ≤ n)
  | .vstr s, .vstr t => charListLe s.toList t.toList
  | .vbool a, .vbool b => !a || b
  | _, _ => decide (valueRank v ≤ valueRank w)

/-- Row comparison along the ORDER BY column. -/
def rowLe (c : String) (r1 r2 : Record) : Bool :=
  match getCol r1 c, getCol r2 c with
  | some v, some w => valueLe v w
  | none, _ => true
  | _, none => false

/-- Insertion step of the model sort. -/
def insertLe {α : Type} (le : α → α → Bool) (a : α) : List α → List α
  | [] => [a]
  | b :: l => if le a b then a :: b :: l else b :: insertLe le a l

/-- Insertion sort (executable model of the ORDER BY reordering; it
permutes the list, which is all the claims use). -/
def insSort {α : Type} (le : α → α → Bool) : List α → List α
  | [] => []
  | a :: l => insertLe le a (insSort le l)

/-- The ORDER BY reordering of the filtered rows. -/
def sortRowsBy (c : String) (asc : Bool) (rows : List Record) : List Record :=
  if asc then insSort (rowLe c) rows else insSort (fun a b => rowLe c b a) rows

/-- JS Math.ceil of an integer quotient, for a nonzero divisor; the source
only reaches it with the limit below it nonnegative, and the claims fix the
divisor positive (a zero divisor would give the JS Infinity, outside this
model). -/
def jsCeilDiv (a b : Int) : Int := if b = 0 then 0 else -((-a) / b)

/-- LIMIT/OFFSET evaluation: the store rejects negative bound values (the
source passes them through unvalidated), otherwise a slice. -/
def applyLimitOffset (limit offset : Int) (rows : List Record) : Except Nat (List Record) :=
  if limit < 0 || offset < 0 then .error 500
  else .ok ((rows.drop offset.toNat).take limit.toNat)

/-- The 200 body of the listing route. -/
structure ListRowsOk where
  data : List Record
  columns : List String
  page : Int
  limit : Int
  totalCount : Int
  totalPages : Int
deriving Repr, DecidableEq

/-- Is a row of the otps table older than the three-day retention window?
Only an integer created_at strictly below NOW() minus three days satisfies
the DELETE predicate (NULL comparisons select nothing). -/
def rowIsOldOtp (db : DB) (r : Record) : Bool :=
  match getCol r "created_at" with
  | some (.vint t) => decide (t < db.now - 259200)
  | _ => false

/-- Per-table effect of the maintenance DELETE: only the table literally
named otps with a created_at column loses its stale rows. -/
def cleanOtpTable (db : DB) (tbl : Table) : Table :=
  if tbl.name == "otps" && tbl.columns.any (fun c => c.column_name == "created_at") then
    { tbl with rows := tbl.rows.filter (fun r => !(rowIsOldOtp db r)) }
  else tbl

/-- Effect of the maintenance DELETE when it succeeds: the rows of the
table literally named otps that are older than three days disappear; if
that table or its created_at column is missing the statement fails and the
swallowed error leaves the store unchanged. -/
def deleteOldOtps (db : DB) : DB :=
  { db with tables := db.tables.map (cleanOtpTable db) }

/-- The cleanup step both routes run when the requested table name
lower-cases to otps: the DELETE is attempted (and traced); when the flag
says the store call fails, the catch block swallows the error and the
state is unchanged. -/
def runOtpCleanup (db : DB) (cleanupFails : Bool) (table : String) : DB × List String :=
  if lowerStr table == "otps" then
    (if cleanupFails then db else deleteOldOtps db, [otpCleanupQuery])
  else (db, [])

/-- The listing route from the column-metadata query onward (the part after
the table-existence check and the conditional cleanup).  Returns the
response (200 body or error status) and the SQL strings executed here, in
order.  The unreachable branch where the validated table has vanished is a
store failure. -/
def listRowsCore (db : DB) (table : String) (page limit : Int)
    (search sortBy sortOrder : String) : Except Nat ListRowsOk × List String :=
  let offset := (page - 1) * limit
  match findTable db table with
  | none => (.error 500, [columnsQuery])
  | some tbl =>
    let columns := tbl.columns.map (fun c => c.column_name)
    let sortCol := validSortBy columns sortBy
    let cond := searchCondition tbl.columns search
    let filtered := filterRows tbl.columns search tbl.rows
    let totalCount : Int := filtered.length
    let validSortOrder := if upperStr sortOrder == "DESC" then "DESC" else "ASC"
    let k := searchParamCount tbl.columns search
    let cq := countQueryStr table cond
    let dq := dataQueryStr table cond sortCol validSortOrder k
    if columns.contains sortCol then
      match applyLimitOffset limit offset (sortRowsBy sortCol (validSortOrder == "ASC") filtered) with
      | .error e => (.error e, [columnsQuery, cq, dq])
      | .ok rows =>
        (.ok { data := rows, columns := columns, page := page, limit := limit,
               totalCount := totalCount, totalPages := jsCeilDiv totalCount limit },
         [columnsQuery, cq, dq])
    else
      (.error 500, [columnsQuery, cq, dq])

/-- The dynamic-table listing route (GET of a named table): validate the
table name against the live information_schema listing (parameterised, the
name reaches no query string here), run the conditional otps cleanup, then
count and fetch the page. -/
def listRowsHandler (db : DB) (cleanupFails : Bool) (table : String) (page limit : Int)
    (search sortBy sortOrder : String) : Except Nat ListRowsOk × List String :=
  if (db.tables.filter (fun t => t.name == table)).isEmpty then
    (.error 404, [tableCheckQuery])
  else
    let cleaned := runOtpCleanup db cleanupFails table
    let rest := listRowsCore cleaned.1 table page limit search sortBy sortOrder
    (rest.1, tableCheckQuery :: cleaned.2 ++ rest.2)

/-- One entry of the first table-listing variant: name and column count. -/
structure TableEntry where
  table_name : String
  column_count : Nat
deriving Repr, DecidableEq

/-- One entry of the second table-listing variant: with a row count. -/
structure TableEntryRC where
  table_name : String
  column_count : Nat
  row_count : Nat
deriving Repr, DecidableEq

/-- First table-listing variant: every base table of the public schema,
ordered by name, with its column count; no row counts, no filtering. -/
def listTablesHandler (db : DB) : List TableEntry × List String :=
  ((insSort (fun a b => strLeb a.name b.name) db.tables).map
      (fun t => { table_name := t.name, column_count := t.columns.length }),
   [tablesQuery])

/-- Second table-listing variant: same listing, then one interpolated
COUNT per table (a failing count is caught and reported as zero; counts
cannot fail in this model), then the handler itself drops the tables whose
row count is zero. -/
def listTablesWithCountsHandler (db : DB) : List TableEntryRC × List String :=
  let sorted := insSort (fun a b => strLeb a.name b.name) db.tables
  let withCounts : List TableEntryRC := sorted.map (fun t =>
    { table_name := t.name, column_count := t.columns.length, row_count := t.rows.length })
  (withCounts.filter (fun e => decide (0 < e.row_count)),
   tablesQuery :: sorted.map (fun t => rowCountQuery t.name))

/-- The relationships listing route: the full foreign-key edge set, from a
single static parameterless query. -/
def listForeignKeysHandler (db : DB) : List ForeignKey × List String :=
  (db.fks, [fkAllQuery])

/-- One edge of the relationship response (the source maps each discovered
constraint row to from/to/fromColumn/toColumn, dropping the constraint
name). -/
structure EdgeOut where
  fromTable : String
  toTable : String
  fromColumn : String
  toColumn : String
deriving Repr, DecidableEq

/-- The projection the relationship route applies to each discovered
foreign-key row. -/
def edgeOut (fk : ForeignKey) : EdgeOut :=
  { fromTable := fk.from_table, toTable := fk.to_table,
    fromColumn := fk.from_column, toColumn := fk.to_column }

/-- The 200 body of the relationship route. -/
structure ResolveOk where
  mainTable : String
  mainRecord : Record
  relatedRecords : List (String × List Record)
  relationships : List EdgeOut
deriving Repr, DecidableEq

/-- The bucket stored under a table name in the relatedRecords object. -/
def lookupBucket (m : List (String × List Record)) (k : String) : Option (List Record) :=
  (m.find? (fun kv => kv.1 == k)).map (fun kv => kv.2)

/-- The JS push into relatedRecords: create the key at the end on first
use, then append (an existing empty array is truthy and kept). -/
def pushBucket (m : List (String × List Record)) (k : String) (rs : List Record) :
    List (String × List Record) :=
  match lookupBucket m k with
  | none => m ++ [(k, rs)]
  | some _ => m.map (fun kv => if kv.1 == k then (kv.1, kv.2 ++ rs) else kv)

/-- Comparing a stored value against a bound text parameter (the raw id
path segment).  The model lets an uncoercible comparison select nothing;
the claims never reach the corner where the store would instead raise a
cast error. -/
def valueMatchesParam (v : Value) (p : String) : Bool :=
  match v with
  | .vstr s => s == p
  | .vint n => (toString n) == p
  | .vbool b => (if b then "true" else "false") == p
  | .vnull => false

/-- SELECT * FROM t WHERE c = value with a bound scalar parameter: a
missing table or column is a store failure, otherwise the matching rows. -/
def fetchEq (db : DB) (t c : String) (v : Value) : Except Nat (List Record) :=
  match findTable db t with
  | none => .error 500
  | some tbl =>
    if tbl.columns.any (fun col => col.column_name == c) then
      .ok (tbl.rows.filter (fun r => getCol r c == some v))
    else .error 500

/-- SELECT * FROM t WHERE c = id with the raw text parameter. -/
def fetchEqParam (db : DB) (t c : String) (p : String) : Except Nat (List Record) :=
  match findTable db t with
  | none => .error 500
  | some tbl =>
    if tbl.columns.any (fun col => col.column_name == c) then
      .ok (tbl.rows.filter (fun r =>
        match getCol r c with
        | some v => valueMatchesParam v p
        | none => false))
    else .error 500

/-- One iteration of the relationship loop: outbound edges read the
foreign-key value from the main record and fetch only when it is truthy;
inbound edges fetch rows of the referencing table whose column equals the
raw id parameter; anything else is skipped. -/
def resolveStep (db : DB) (table id : String) (main : Record)
    (acc : List (String × List Record)) (rel : ForeignKey) :
    Except Nat (List (String × List Record)) × List String :=
  if rel.from_table == table then
    match getCol main rel.from_column with
    | some v =>
      if truthyV v then
        match fetchEq db rel.to_table rel.to_column v with
        | .error e => (.error e, [relatedQuery rel.to_table rel.to_column])
        | .ok rows => (.ok (pushBucket acc rel.to_table rows), [relatedQuery rel.to_table rel.to_column])
      else (.ok acc, [])
    | none => (.ok acc, [])
  else if rel.to_table == table then
    match fetchEqParam db rel.from_table rel.from_column id with
    | .error e => (.error e, [relatedQuery rel.from_table rel.from_column])
    | .ok rows => (.ok (pushBucket acc rel.from_table rows), [relatedQuery rel.from_table rel.from_column])
  else (.ok acc, [])

/-- The relationship loop over the discovered edges, in discovery order;
the first failing fetch aborts the whole operation. -/
def resolveFold (db : DB) (table id : String) (main : Record) :
    List ForeignKey → List (String × List Record) →
    Except Nat (List (String × List Record)) × List String
  | [], acc => (.ok acc, [])
  | rel :: rest, acc =>
    match resolveStep db table id main acc rel with
    | (.error e, tr) => (.error e, tr)
    | (.ok acc2, tr) =>
      let next := resolveFold db table id main rest acc2
      (next.1, tr ++ next.2)

/-- The foreign-key rows the discovery query returns for a table: every
constraint row whose referencing or referenced table is the requested
one. -/
def incidentFks (db : DB) (table : String) : List ForeignKey :=
  db.fks.filter (fun fk => fk.from_table == table || fk.to_table == table)

/-- The relationship route after the conditional cleanup: main-record fetch
(with the requested table name interpolated, unvalidated, and the fixed
column name id), 404 on zero rows, then edge discovery and the
relationship loop. -/
def resolveCore (db : DB) (table id : String) : Except Nat ResolveOk × List String :=
  let mq := mainRecordQuery table
  match findTable db table with
  | none => (.error 500, [mq])
  | some tbl =>
    if tbl.columns.any (fun c => c.column_name == "id") then
      match tbl.rows.filter (fun r =>
        match getCol r "id" with
        | some v => valueMatchesParam v id
        | none => false) with
      | [] => (.error 404, [mq])
      | main :: _ =>
        let rels := incidentFks db table
        let looped := resolveFold db table id main rels []
        match looped.1 with
        | .error e => (.error e, [mq, fkIncidentQuery] ++ looped.2)
        | .ok related =>
          (.ok { mainTable := table, mainRecord := main,
                 relatedRecords := related, relationships := rels.map edgeOut },
           [mq, fkIncidentQuery] ++ looped.2)
    else (.error 500, [mq])

/-- The relationship route: conditional otps cleanup, then the main-record
fetch and the relationship loop.  No validation of the table name happens
anywhere on this path. -/
def resolveHandler (db : DB) (cleanupFails : Bool) (table id : String) :
    Except Nat ResolveOk × List String :=
  let cleaned := runOtpCleanup db cleanupFails table
  let rest := resolveCore cleaned.1 table id
  (rest.1, cleaned.2 ++ rest.2)

/-- The search string is free of the LIKE metacharacters percent,
underscore and backslash, so the pattern built around it reads literally. -/
def specialFree (s : String) : Prop :=
  ∀ c ∈ s.toList, c ≠ '%' ∧ c ≠ '_' ∧ c ≠ '\\'

/-- A store with a single users table holding one row. -/
def dbUsersOnly : DB :=
  { tables := [ { name := "users",
                  columns := [ ⟨ "id", "integer"⟩, ⟨ "name", "character varying"⟩],
                  rows := [ [ ( "id", .vint 1), ( "name", .vstr "Ann")]] }],
    fks := [],
    now := 0 }

/-- An injection-shaped table name that exists in no catalog. -/
def injTable : String := "users; DROP TABLE x"

/-- A store where the main row of a references b through a NULL
foreign-key column. -/
def dbNullFk : DB :=
  { tables := [ { name := "a",
                  columns := [ ⟨ "id", "integer"⟩, ⟨ "b_id", "integer"⟩],
                  rows := [ [ ( "id", .vint 1), ( "b_id", .vnull)]] },
                { name := "b",
                  columns := [ ⟨ "id", "integer"⟩],
                  rows := [ [ ( "id", .vint 5)]] }],
    fks := [ ⟨ "a", "b_id", "b", "id", "a_b_fk"⟩],
    now := 0 }

/-- A store where the main row of a references b through the non-null
foreign-key value zero, and b has a matching row. -/
def dbZeroFk : DB :=
  { tables := [ { name := "a",
                  columns := [ ⟨ "id", "integer"⟩, ⟨ "b_id", "integer"⟩],
                  rows := [ [ ( "id", .vint 1), ( "b_id", .vint 0)]] },
                { name := "b",
                  columns := [ ⟨ "id", "integer"⟩],
                  rows := [ [ ( "id", .vint 0)]] }],
    fks := [ ⟨ "a", "b_id", "b", "id", "a_b_fk"⟩],
    now := 0 }

/-- A store where the main row of a references b through the truthy
foreign-key value seven, and b holds a matching and a non-matching row. -/
def dbOutbound : DB :=
  { tables := [ { name := "a",
                  columns := [ ⟨ "id", "integer"⟩, ⟨ "b_id", "integer"⟩],
                  rows := [ [ ( "id", .vint 1), ( "b_id", .vint 7)]] },
                { name := "b",
                  columns := [ ⟨ "id", "integer"⟩],
                  rows := [ [ ( "id", .vint 7)], [ ( "id", .vint 8)]] }],
    fks := [ ⟨ "a", "b_id", "b", "id", "a_b_fk"⟩],
    now := 0 }

/-- A store with one text column whose single value is abc. -/
def dbSearchWild : DB :=
  { tables := [ { name := "users",
                  columns := [ ⟨ "name", "character varying"⟩],
                  rows := [ [ ( "name", .vstr "abc")]] }],
    fks := [],
    now := 0 }

/-- A store with a text column for the search witness. -/
def dbSearchPlain : DB :=
  { tables := [ { name := "users",
                  columns := [ ⟨ "id", "integer"⟩, ⟨ "name", "character varying"⟩],
                  rows := [ [ ( "id", .vint 1), ( "name", .vstr "Banana")],
                            [ ( "id", .vint 2), ( "name", .vstr "Bob")]] }],
    fks := [],
    now := 0 }

/-- A store holding one empty and one non-empty base table. -/
def dbTwoTables : DB :=
  { tables := [ { name := "logs", columns := [ ⟨ "id", "integer"⟩], rows := [] },
                { name := "users",
                  columns := [ ⟨ "id", "integer"⟩],
                  rows := [ [ ( "id", .vint 1)]] }],
    fks := [],
    now := 0 }

/-- A store with an otps table holding one row three days old and one
fresh row; the clock stands at 300000 seconds. -/
def dbOtps : DB :=
  { tables := [ { name := "otps",
                  columns := [ ⟨ "id", "integer"⟩, ⟨ "created_at", "timestamp with time zone"⟩],
                  rows := [ [ ( "id", .vint 1), ( "created_at", .vint 0)],
                            [ ( "id", .vint 2), ( "created_at", .vint 299000)]] }],
    fks := [],
    now := 300000 }

/-- A store whose only table has no column named id. -/
def dbNoId : DB :=
  { tables := [ { name := "settings",
                  columns := [ ⟨ "key", "character varying"⟩, ⟨ "val", "text"⟩],
                  rows := [ [ ( "key", .vstr "theme"), ( "val", .vstr "dark")]] }],
    fks := [],
    now := 0 }

/-- Decidable equality of handler results, for evaluating the embedding on
concrete inputs. -/
def exceptDecEq {ε α : Type} [DecidableEq ε] [DecidableEq α] :
    (a b : Except ε α) → Decidable (a = b)
  | .error e, .error f =>
    if h : e = f then .isTrue (by subst h; rfl)
    else .isFalse (by intro hh; injection hh with h2; exact h h2)
  | .error _, .ok _ => .isFalse (by intro hh; exact Except.noConfusion hh)
  | .ok _, .error _ => .isFalse (by intro hh; exact Except.noConfusion hh)
  | .ok a, .ok b =>
    if h : a = b then .isTrue (by subst h; rfl)
    else .isFalse (by intro hh; injection hh with h2; exact h h2)

instance {ε α : Type} [DecidableEq ε] [DecidableEq α] : DecidableEq (Except ε α) :=
  exceptDecEq

/-! ### Helper lemmas about the cleanup step -/

/-- The cleanup never renames a table. -/
theorem cleanOtpTable_name (db : DB) (tbl : Table) :
    (cleanOtpTable db tbl).name = tbl.name := by
  unfold cleanOtpTable; split <;> rfl

/-- The cleanup never changes a table's declared columns. -/
theorem cleanOtpTable_columns (db : DB) (tbl : Table) :
    (cleanOtpTable db tbl).columns = tbl.columns := by
  unfold cleanOtpTable; split <;> rfl

/-- The cleanup only removes rows. -/
theorem cleanOtpTable_rows_subset (db : DB) (tbl : Table) :
    (cleanOtpTable db tbl).rows ⊆ tbl.rows := by
  unfold cleanOtpTable; split
  · exact fun r hr => (List.mem_filter.mp hr).1
  · exact fun r hr => hr

/-- Looking a name up in a name-preserving map of the table list. -/
theorem find_name_map (f : Table → Table) (hf : ∀ x, (f x).name = x.name) (t : String) :
    ∀ l : List Table,
      (l.map f).find? (fun x => x.name == t) = ((l.find? (fun x => x.name == t)).map f) := by
  intro l
  rw [List.find?_map]
  have hfun : ((fun x : Table => x.name == t) ∘ f) = (fun x : Table => x.name == t) := by
    funext x
    simp [Function.comp, hf]
  rw [hfun]

/-- Table lookup after a successful cleanup DELETE. -/
theorem findTable_deleteOldOtps (db : DB) (t : String) :
    findTable (deleteOldOtps db) t = (findTable db t).map (cleanOtpTable db) := by
  unfold findTable deleteOldOtps
  exact find_name_map _ (cleanOtpTable_name db) t db.tables

/-- The cleanup step leaves the foreign-key constraints untouched. -/
theorem runOtpCleanup_fks (db : DB) (cf : Bool) (t : String) :
    ((runOtpCleanup db cf t).1).fks = db.fks := by
  unfold runOtpCleanup
  split
  · split <;> rfl
  · rfl

/-- The cleanup step preserves every table, its name and its columns, and
only removes rows. -/
theorem runOtpCleanup_findTable {db : DB} {t2 : String} {tbl : Table}
    (cf : Bool) (t : String) (h : findTable db t2 = some tbl) :
    ∃ tbl2, findTable (runOtpCleanup db cf t).1 t2 = some tbl2 ∧
      tbl2.name = tbl.name ∧ tbl2.columns = tbl.columns ∧ tbl2.rows ⊆ tbl.rows := by
  unfold runOtpCleanup
  split
  · split
    · exact ⟨tbl, h, rfl, rfl, fun _ hr => hr⟩
    · refine ⟨cleanOtpTable db tbl, ?_, cleanOtpTable_name db tbl,
        cleanOtpTable_columns db tbl, cleanOtpTable_rows_subset db tbl⟩
      show findTable (deleteOldOtps db) t2 = _
      rw [findTable_deleteOldOtps, h]
      rfl
  · exact ⟨tbl, h, rfl, rfl, fun _ hr => hr⟩

/-- A table found in the store makes the existence check succeed. -/
theorem filter_isEmpty_false_of_findTable {db : DB} {t : String} {tbl : Table}
    (h : findTable db t = some tbl) :
    (db.tables.filter (fun x => x.name == t)).isEmpty = false := by
  unfold findTable at h
  rw [List.isEmpty_eq_false]
  intro hnil
  have hmem : tbl ∈ db.tables.filter (fun x => x.name == t) :=
    List.mem_filter.mpr ⟨List.mem_of_find?_eq_some h,
      @List.find?_some Table (fun x => x.name == t) tbl db.tables h⟩
  rw [hnil] at hmem
  exact absurd hmem (List.not_mem_nil _)

/-! ### Helper lemmas about the model sort and arithmetic -/

/-- Insertion preserves membership. -/
theorem mem_insertLe {α : Type} (le : α → α → Bool) (x : α) (l : List α) (a : α) :
    a ∈ insertLe le x l ↔ a = x ∨ a ∈ l := by
  induction l with
  | nil => simp [insertLe]
  | cons b l ih =>
    unfold insertLe
    split
    · simp
    · simp [ih]
      tauto

/-- The model sort permutes membership. -/
theorem mem_insSort {α : Type} (le : α → α → Bool) (l : List α) (a : α) :
    a ∈ insSort le l ↔ a ∈ l := by
  induction l with
  | nil => simp [insSort]
  | cons b l ih => simp [insSort, mem_insertLe, ih]

/-- The JS ceiling division is the integer ceiling for a positive divisor:
zero at zero, and characterised by the two bracketing inequalities. -/
theorem jsCeilDiv_spec (a b : Int) (hb : 0 < b) :
    a ≤ jsCeilDiv a b * b ∧ (jsCeilDiv a b - 1) * b < a ∧ (a = 0 → jsCeilDiv a b = 0) := by
  unfold jsCeilDiv
  rw [if_neg (by omega)]
  have h1 := Int.ediv_add_emod (-a) b
  have h2 := Int.emod_nonneg (-a) (by omega : b ≠ 0)
  have h3 := Int.emod_lt_of_pos (-a) hb
  refine ⟨by nlinarith [h1, h2], by nlinarith [h1, h3], ?_⟩
  intro ha
  subst ha
  simp

/-! ### Helper lemmas about LIKE matching -/

/-- A literal pattern matches a prefix of the empty string only when it is
itself empty. -/
theorem prefMatch_nil (p : List Char) : prefMatch p [] = p.isEmpty := by
  cases p <;> rfl

/-- ASCII lower-casing never produces a LIKE metacharacter from a
non-metacharacter. -/
theorem lowerChar_specialFree {c : Char} (h : c ≠ '%' ∧ c ≠ '_' ∧ c ≠ '\\') :
    lowerChar c ≠ '%' ∧ lowerChar c ≠ '_' ∧ lowerChar c ≠ '\\' := by
  unfold lowerChar
  split
  all_goals first
  | decide
  | exact h

/-- Lower-casing a metacharacter-free character list keeps it free. -/
theorem lowerList_specialFree {l : List Char}
    (h : ∀ c ∈ l, c ≠ '%' ∧ c ≠ '_' ∧ c ≠ '\\') :
    ∀ c ∈ lowerList l, c ≠ '%' ∧ c ≠ '_' ∧ c ≠ '\\' := by
  intro c hc
  obtain ⟨d, hd, rfl⟩ := List.mem_map.mp hc
  exact lowerChar_specialFree (h d hd)

/-- Unfolding: zero fuel never matches. -/
theorem likeAux_zero (p s : List Char) : likeAux 0 p s = false := rfl

/-- Unfolding: the empty pattern matches the empty string. -/
theorem likeAux_nil_nil (f : Nat) : likeAux (f + 1) [] [] = true := rfl

/-- Unfolding: the empty pattern rejects a non-empty string. -/
theorem likeAux_nil_cons (f : Nat) (a : Char) (s : List Char) :
    likeAux (f + 1) [] (a :: s) = false := rfl

/-- Unfolding: a leading percent against the empty string. -/
theorem likeAux_pct_nil (f : Nat) (p : List Char) :
    likeAux (f + 1) ( '%' :: p) [] = likeAux f p [] := rfl

/-- Unfolding: a leading percent matches nothing or swallows one
character. -/
theorem likeAux_pct_cons (f : Nat) (p : List Char) (a : Char) (s : List Char) :
    likeAux (f + 1) ( '%' :: p) (a :: s) =
      (likeAux f p (a :: s) || likeAux f ( '%' :: p) s) := rfl

/-- Unfolding: a literal pattern character rejects the empty string. -/
theorem likeAux_lit_nil (f : Nat) {c : Char} (p : List Char) (h1 : c ≠ '%') :
    likeAux (f + 1) (c :: p) [] = false := by
  rw [likeAux.eq_def]
  split
  all_goals simp_all

/-- Unfolding: a literal pattern character must equal the string head. -/
theorem likeAux_lit_cons (f : Nat) {c : Char} (p : List Char) (a : Char) (s : List Char)
    (h1 : c ≠ '%') (h2 : c ≠ '_') (h3 : c ≠ '\\') :
    likeAux (f + 1) (c :: p) (a :: s) = (decide (a = c) && likeAux f p s) := by
  rw [likeAux.eq_def]
  split
  all_goals simp_all

/-- A metacharacter-free pattern matches exactly itself. -/
theorem likeAux_lit : ∀ (f : Nat) (p s : List Char),
    (∀ c ∈ p, c ≠ '%' ∧ c ≠ '_' ∧ c ≠ '\\') → p.length + s.length < f →
    (likeAux f p s = true ↔ s = p) := by
  intro f
  induction f with
  | zero => intro p s _ hb; omega
  | succ g ih =>
    intro p s hfree hb
    cases p with
    | nil =>
      cases s with
      | nil => simp [likeAux_nil_nil]
      | cons a s => simp [likeAux_nil_cons]
    | cons c p =>
      obtain ⟨hc1, hc2, hc3⟩ := hfree c (by simp)
      have hfree2 : ∀ x ∈ p, x ≠ '%' ∧ x ≠ '_' ∧ x ≠ '\\' :=
        fun x hx => hfree x (by simp [hx])
      cases s with
      | nil => simp [likeAux_lit_nil g p hc1]
      | cons a s =>
        have hlen : p.length + s.length < g := by
          simp only [List.length_cons] at hb; omega
        rw [likeAux_lit_cons g p a s hc1 hc2 hc3]
        simp [ih p s hfree2 hlen, List.cons.injEq, Bool.and_eq_true, decide_eq_true_iff]

/-- A metacharacter-free pattern followed by one percent matches exactly
the strings it is a prefix of. -/
theorem likeAux_pctEnd : ∀ (f : Nat) (p s : List Char),
    (∀ c ∈ p, c ≠ '%' ∧ c ≠ '_' ∧ c ≠ '\\') → p.length + 1 + s.length < f →
    (likeAux f (p ++ [ '%']) s = true ↔ prefMatch p s = true) := by
  intro f
  induction f with
  | zero => intro p s _ hb; omega
  | succ g ih =>
    intro p s hfree hb
    cases p with
    | nil =>
      simp only [List.nil_append]
      cases s with
      | nil =>
        obtain ⟨g2, rfl⟩ : ∃ g2, g = g2 + 1 := ⟨g - 1, by simp at hb; omega⟩
        rw [likeAux_pct_nil, likeAux_nil_nil]
        simp [prefMatch]
      | cons a s =>
        obtain ⟨g2, rfl⟩ : ∃ g2, g = g2 + 1 := ⟨g - 1, by simp at hb; omega⟩
        have h2 := ih [] s (by simp) (by simp only [List.length_cons, List.length_nil] at hb ⊢; omega)
        simp only [List.nil_append] at h2
        rw [likeAux_pct_cons, likeAux_nil_cons]
        simp [prefMatch, h2]
    | cons c p =>
      obtain ⟨hc1, hc2, hc3⟩ := hfree c (by simp)
      have hfree2 : ∀ x ∈ p, x ≠ '%' ∧ x ≠ '_' ∧ x ≠ '\\' :=
        fun x hx => hfree x (by simp [hx])
      simp only [List.cons_append]
      cases s with
      | nil =>
        rw [likeAux_lit_nil g (p ++ [ '%']) hc1]
        simp [prefMatch]
      | cons a s =>
        have hlen : p.length + 1 + s.length < g := by
          simp only [List.length_cons] at hb; omega
        rw [likeAux_lit_cons g (p ++ [ '%']) a s hc1 hc2 hc3]
        simp [ih p s hfree2 hlen, prefMatch, Bool.and_eq_true, decide_eq_true_iff]

/-- The percent-wrapped metacharacter-free pattern matches exactly the
strings containing it as a substring. -/
theorem likeAux_wrap : ∀ (f : Nat) (p s : List Char),
    (∀ c ∈ p, c ≠ '%' ∧ c ≠ '_' ∧ c ≠ '\\') → p.length + 2 + s.length < f →
    (likeAux f ( '%' :: (p ++ [ '%'])) s = true ↔ subOccurs p s = true) := by
  intro f
  induction f with
  | zero => intro p s _ hb; omega
  | succ g ih =>
    intro p s hfree hb
    cases s with
    | nil =>
      have h1 := likeAux_pctEnd g p [] hfree (by simp at hb ⊢; omega)
      rw [likeAux_pct_nil]
      simp [h1, subOccurs, prefMatch_nil]
    | cons a s =>
      have h1 := likeAux_pctEnd g p (a :: s) hfree
        (by simp only [List.length_cons] at hb ⊢; omega)
      have h2 := ih p s hfree (by simp only [List.length_cons] at hb; omega)
      rw [likeAux_pct_cons]
      simp [subOccurs, h1, h2, Bool.or_eq_true]

/-- The ILIKE predicate the source builds around a metacharacter-free
search string holds exactly on the values containing the search string
case-insensitively. -/
theorem ilike_wrapped_iff {s : String} (v : String) (h : specialFree s) :
    ilike ("%" ++ s ++ "%") v = true ↔ containsCI s v = true := by
  unfold ilike containsCI likeMatch
  have hp : ("%" ++ s ++ "%").toList = '%' :: (s.toList ++ [ '%']) := by
    show ("%" ++ s ++ "%").data = _
    rw [String.data_append, String.data_append]
    rfl
  rw [hp]
  have hl : lowerList ( '%' :: (s.toList ++ [ '%'])) =
      '%' :: (lowerList s.toList ++ [ '%']) := by
    unfold lowerList
    rw [List.map_cons, List.map_append]
    rfl
  rw [hl]
  refine likeAux_wrap _ _ _ (lowerList_specialFree h) ?_
  simp only [List.length_cons, List.length_append, lowerList, List.length_map]
  omega

/-- Looking up the bucket stored at the head key. -/
theorem lookupBucket_cons_self (k : String) (l2 : List Record)
    (m : List (String × List Record)) :
    lookupBucket ((k, l2) :: m) k = some l2 := by
  unfold lookupBucket
  rw [@List.find?_cons_of_pos (String × List Record) (fun kv => kv.1 == k) (k, l2) m (by simp)]
  rfl

/-- Bucket lookup skips an entry with a different key. -/
theorem lookupBucket_cons_ne {k2 k : String} (h : k2 ≠ k) (l2 : List Record)
    (m : List (String × List Record)) :
    lookupBucket ((k2, l2) :: m) k = lookupBucket m k := by
  unfold lookupBucket
  rw [@List.find?_cons_of_neg (String × List Record) (fun kv => kv.1 == k) (k2, l2) m
    (by simp [h])]

/-- Pushing rows into a relatedRecords bucket appends them to whatever the
bucket already held (creating it when absent). -/
theorem lookupBucket_pushBucket (k : String) (rs : List Record) :
    ∀ m : List (String × List Record),
      lookupBucket (pushBucket m k rs) k = some ((lookupBucket m k).getD [] ++ rs) := by
  intro m
  induction m with
  | nil =>
    show lookupBucket [(k, rs)] k = some rs
    rw [lookupBucket_cons_self]
  | cons kv m ih =>
    rcases kv with ⟨k2, l2⟩
    by_cases hk : k2 = k
    · subst hk
      have hpush : pushBucket ((k2, l2) :: m) k2 rs =
          (k2, l2 ++ rs) :: m.map (fun kv => if kv.1 == k2 then (kv.1, kv.2 ++ rs) else kv) := by
        unfold pushBucket
        rw [lookupBucket_cons_self]
        simp
      rw [hpush, lookupBucket_cons_self, lookupBucket_cons_self]
      rfl
    · have hl := lookupBucket_cons_ne hk l2 m
      unfold pushBucket
      rw [hl]
      cases hm : lookupBucket m k with
      | none =>
        show lookupBucket (((k2, l2) :: m) ++ [(k, rs)]) k = some (Option.getD none [] ++ rs)
        rw [List.cons_append, lookupBucket_cons_ne hk]
        have ih2 := ih
        unfold pushBucket at ih2
        rw [hm] at ih2
        exact ih2
      | some l =>
        show lookupBucket
            (((k2, l2) :: m).map (fun kv => if kv.1 == k then (kv.1, kv.2 ++ rs) else kv)) k =
          some ((some l).getD [] ++ rs)
        rw [List.map_cons]
        have hh : (if ((k2, l2).1 == k) = true then ((k2, l2).1, (k2, l2).2 ++ rs)
            else (k2, l2)) = (k2, l2) := by
          simp [hk]
        rw [hh, lookupBucket_cons_ne hk]
        have ih2 := ih
        unfold pushBucket at ih2
        rw [hm] at ih2
        exact ih2

/-! ### Claim C1 -/

set_option maxRecDepth 40000 in
/-- C1: the specification invariant says no table name reaches query
construction unless it appears in a catalog snapshot fetched in the same
request, and that the table passed to resolve is validated first.  The
relationship route does the opposite: with an empty-catalog store and an
injection-shaped table name, the very first executed query string already
contains the raw identifier, no catalog query precedes it, and the request
surfaces a store error. -/
theorem c1_resolve_interpolates_unvalidated_table :
    resolveHandler dbUsersOnly false injTable "1" =
      (.error 500, [mainRecordQuery injTable]) ∧
    occursIn injTable (mainRecordQuery injTable) = true ∧
    findTable dbUsersOnly injTable = none := by
  refine ⟨by decide, by decide, by decide⟩

/-! ### Claim C2 -/

set_option maxRecDepth 40000 in
/-- C2: for the unknown injection-shaped table name, the listing route
rejects with 404 after only the parameterised existence check (whose query
string does not contain the identifier), but the relationship route builds
and executes the interpolated main-record query and fails 500, not 404. -/
theorem c2_unknown_table_listing_404_resolve_500 :
    listRowsHandler dbUsersOnly false injTable 1 10 "" "id" "ASC" =
      (.error 404, [tableCheckQuery]) ∧
    occursIn injTable tableCheckQuery = false ∧
    resolveHandler dbUsersOnly false injTable "1" =
      (.error 500, [mainRecordQuery injTable]) ∧
    occursIn injTable (mainRecordQuery injTable) = true := by
  refine ⟨by decide, by decide, by decide, by decide⟩

/-! ### Claim C3 -/

set_option maxRecDepth 40000 in
/-- C3 counterexample: with a NULL foreign-key value the outbound edge is
skipped (no related fetch appears in the trace and relatedRecords stays
empty), yet the skipped edge is still present in the returned relationships
list, which the claim says must contain traversed edges only. -/
theorem c3_counterexample_skipped_edge_still_listed :
    resolveHandler dbNullFk false "a" "1" =
      (.ok { mainTable := "a",
             mainRecord := [ ( "id", .vint 1), ( "b_id", .vnull)],
             relatedRecords := [],
             relationships := [ ⟨ "a", "b", "b_id", "id"⟩] },
       [mainRecordQuery "a", fkIncidentQuery]) ∧
    getCol [ ( "id", .vint 1), ( "b_id", .vnull)] "b_id" = some .vnull := by
  refine ⟨by decide, by decide⟩

/-- C3 amended: the relationships list of a successful resolve response is
the projection of every discovered incident foreign-key edge, including
the edges skipped because of a null or falsy foreign-key value. -/
theorem c3_relationships_lists_all_incident_edges
    (db : DB) (cf : Bool) (table id : String) (body : ResolveOk)
    (h : (resolveHandler db cf table id).1 = .ok body) :
    body.relationships = (incidentFks db table).map edgeOut := by
  have hfks : ((runOtpCleanup db cf table).1).fks = db.fks := runOtpCleanup_fks db cf table
  have hinc : incidentFks (runOtpCleanup db cf table).1 table = incidentFks db table := by
    unfold incidentFks
    rw [hfks]
  simp only [resolveHandler, resolveCore] at h
  split at h
  · exact absurd h (by simp)
  · split at h
    · split at h
      · exact absurd h (by simp)
      · split at h
        · exact absurd h (by simp)
        · rw [Except.ok.injEq] at h
          rw [← h, ← hinc]
    · exact absurd h (by simp)

set_option maxRecDepth 40000 in
/-- C3 witness: the amended statement evaluated on the NULL foreign-key
store. -/
theorem c3_witness :
    (resolveHandler dbNullFk false "a" "1").1 =
      .ok { mainTable := "a",
            mainRecord := [ ( "id", .vint 1), ( "b_id", .vnull)],
            relatedRecords := [],
            relationships := [ ⟨ "a", "b", "b_id", "id"⟩] } ∧
    ResolveOk.relationships
        { mainTable := "a",
          mainRecord := [ ( "id", .vint 1), ( "b_id", .vnull)],
          relatedRecords := [],
          relationships := [ ⟨ "a", "b", "b_id", "id"⟩] } =
      (incidentFks dbNullFk "a").map edgeOut :=
  ⟨by decide,
   c3_relationships_lists_all_incident_edges dbNullFk false "a" "1" _ (by decide)⟩

/-! ### Claim C4 -/

set_option maxRecDepth 40000 in
/-- C4 counterexample: the outbound foreign-key value zero is not null,
so the claim requires the matching row of b to be fetched and appended;
the source tests JS truthiness instead and skips the edge, leaving
relatedRecords empty. -/
theorem c4_counterexample_zero_fk_skipped :
    resolveHandler dbZeroFk false "a" "1" =
      (.ok { mainTable := "a",
             mainRecord := [ ( "id", .vint 1), ( "b_id", .vint 0)],
             relatedRecords := [],
             relationships := [ ⟨ "a", "b", "b_id", "id"⟩] },
       [mainRecordQuery "a", fkIncidentQuery]) ∧
    getCol [ ( "id", .vint 1), ( "b_id", .vint 0)] "b_id" = some (.vint 0) ∧
    Value.vint 0 ≠ .vnull ∧
    (findTable dbZeroFk "b").map (fun tbl =>
        tbl.rows.filter (fun r => getCol r "id" == some (.vint 0))) =
      some [ [ ( "id", .vint 0)]] := by
  refine ⟨by decide, by decide, by decide, by decide⟩

/-- C4 amended: an outbound edge is skipped exactly when the main record's
foreign-key value is absent or falsy (null, zero, the empty string or
false); for every truthy value the step fetches all rows of the referenced
table whose referenced column equals that value and appends them to that
table's bucket. -/
theorem c4_outbound_step_skips_iff_falsy
    (db : DB) (table id : String) (main : Record)
    (acc : List (String × List Record)) (rel : ForeignKey) (tbl2 : Table)
    (hfrom : rel.from_table = table)
    (hfind : findTable db rel.to_table = some tbl2)
    (hcol : tbl2.columns.any (fun col => col.column_name == rel.to_column) = true) :
    (truthy (getCol main rel.from_column) = false →
      resolveStep db table id main acc rel = (.ok acc, [])) ∧
    (∀ v, getCol main rel.from_column = some v → truthyV v = true →
      resolveStep db table id main acc rel =
        (.ok (pushBucket acc rel.to_table
            (tbl2.rows.filter (fun r => getCol r rel.to_column == some v))),
         [relatedQuery rel.to_table rel.to_column])) ∧
    (∀ v r2, r2 ∈ tbl2.rows.filter (fun r => getCol r rel.to_column == some v) ↔
      r2 ∈ tbl2.rows ∧ getCol r2 rel.to_column = some v) ∧
    (∀ k rs, lookupBucket (pushBucket acc k rs) k =
      some ((lookupBucket acc k).getD [] ++ rs)) := by
  have hbeq : (rel.from_table == table) = true := beq_iff_eq.mpr hfrom
  refine ⟨?_, ?_, ?_, ?_⟩
  · intro htr
    unfold resolveStep
    rw [if_pos hbeq]
    cases hg : getCol main rel.from_column with
    | none => rfl
    | some v =>
      rw [hg] at htr
      simp only [truthy] at htr
      simp [htr]
  · intro v hg htv
    have hfe : fetchEq db rel.to_table rel.to_column v =
        .ok (tbl2.rows.filter (fun r => getCol r rel.to_column == some v)) := by
      unfold fetchEq
      rw [hfind]
      exact if_pos hcol
    unfold resolveStep
    rw [if_pos hbeq, hg]
    simp only [htv, if_true]
    rw [hfe]
  · intro v r2
    simp [List.mem_filter]
  · intro k rs
    exact lookupBucket_pushBucket k rs acc

set_option maxRecDepth 40000 in
/-- C4 witness: the amended statement evaluated on the store where the
outbound foreign-key value is the truthy seven. -/
theorem c4_witness :
    ( "a" : String) = "a" ∧
    findTable dbOutbound "b" =
      some ⟨ "b", [ ⟨ "id", "integer"⟩], [ [ ( "id", .vint 7)], [ ( "id", .vint 8)]]⟩ ∧
    (Table.mk "b" [ ⟨ "id", "integer"⟩]
        [ [ ( "id", .vint 7)], [ ( "id", .vint 8)]]).columns.any
      (fun col => col.column_name == "id") = true ∧
    ((truthy (getCol [ ( "id", .vint 1), ( "b_id", .vint 7)] "b_id") = false →
      resolveStep dbOutbound "a" "1" [ ( "id", .vint 1), ( "b_id", .vint 7)] []
        ⟨ "a", "b_id", "b", "id", "a_b_fk"⟩ = (.ok [], [])) ∧
    (∀ v, getCol [ ( "id", .vint 1), ( "b_id", .vint 7)] "b_id" = some v → truthyV v = true →
      resolveStep dbOutbound "a" "1" [ ( "id", .vint 1), ( "b_id", .vint 7)] []
        ⟨ "a", "b_id", "b", "id", "a_b_fk"⟩ =
        (.ok (pushBucket [] "b"
            ((Table.mk "b" [ ⟨ "id", "integer"⟩]
              [ [ ( "id", .vint 7)], [ ( "id", .vint 8)]]).rows.filter
                (fun r => getCol r "id" == some v))),
         [relatedQuery "b" "id"])) ∧
    (∀ v r2, r2 ∈ (Table.mk "b" [ ⟨ "id", "integer"⟩]
          [ [ ( "id", .vint 7)], [ ( "id", .vint 8)]]).rows.filter
            (fun r => getCol r "id" == some v) ↔
      r2 ∈ (Table.mk "b" [ ⟨ "id", "integer"⟩]
          [ [ ( "id", .vint 7)], [ ( "id", .vint 8)]]).rows ∧ getCol r2 "id" = some v) ∧
    (∀ k rs, lookupBucket (pushBucket ([] : List (String × List Record)) k rs) k =
      some ((lookupBucket ([] : List (String × List Record)) k).getD [] ++ rs))) :=
  ⟨rfl, by decide, by decide,
   c4_outbound_step_skips_iff_falsy dbOutbound "a" "1"
     [ ( "id", .vint 1), ( "b_id", .vint 7)] []
     ⟨ "a", "b_id", "b", "id", "a_b_fk"⟩
     ⟨ "b", [ ⟨ "id", "integer"⟩], [ [ ( "id", .vint 7)], [ ( "id", .vint 8)]]⟩
     rfl (by decide) (by decide)⟩

/-! ### Claim C10 -/

/-- C10: the relationship route always interpolates the requested table
into a main-record query filtering on the fixed column id; on any table
whose columns do not include id that query is a store failure, so resolve
surfaces 500 (never NotFound) and never returns a graph. -/
theorem c10_resolve_requires_id_column
    (db : DB) (cf : Bool) (table id : String) (tbl : Table)
    (hfind : findTable db table = some tbl)
    (hnoid : tbl.columns.any (fun c => c.column_name == "id") = false) :
    (resolveHandler db cf table id).1 = .error 500 ∧
    mainRecordQuery table ∈ (resolveHandler db cf table id).2 := by
  obtain ⟨tbl2, hf2, hname, hcols, hrows⟩ := runOtpCleanup_findTable cf table hfind
  have hnoid2 : tbl2.columns.any (fun c => c.column_name == "id") = false := by
    rw [hcols]
    exact hnoid
  simp only [resolveHandler, resolveCore]
  rw [hf2]
  simp only [hnoid2, Bool.false_eq_true, if_false]
  refine ⟨by simp, by simp⟩

set_option maxRecDepth 40000 in
/-- C10 witness: resolve on the id-less settings table fails 500 with the
interpolated main-record query executed. -/
theorem c10_witness :
    findTable dbNoId "settings" =
      some ⟨ "settings", [ ⟨ "key", "character varying"⟩, ⟨ "val", "text"⟩],
        [ [ ( "key", .vstr "theme"), ( "val", .vstr "dark")]]⟩ ∧
    (Table.mk "settings" [ ⟨ "key", "character varying"⟩, ⟨ "val", "text"⟩]
        [ [ ( "key", .vstr "theme"), ( "val", .vstr "dark")]]).columns.any
      (fun c => c.column_name == "id") = false ∧
    ((resolveHandler dbNoId false "settings" "7").1 = .error 500 ∧
     mainRecordQuery "settings" ∈ (resolveHandler dbNoId false "settings" "7").2) :=
  ⟨by decide, by decide,
   c10_resolve_requires_id_column dbNoId false "settings" "7"
     ⟨ "settings", [ ⟨ "key", "character varying"⟩, ⟨ "val", "text"⟩],
       [ [ ( "key", .vstr "theme"), ( "val", .vstr "dark")]]⟩
     (by decide) (by decide)⟩

/-! ### Claim C7 -/

set_option maxRecDepth 40000 in
/-- C7 counterexample: the store holds the base tables logs (empty) and
users, but the second table-listing variant drops the empty logs table
inside the operation itself, so not every base table appears in its
result. -/
theorem c7_counterexample_empty_table_dropped :
    (listTablesWithCountsHandler dbTwoTables).1 =
      [ { table_name := "users", column_count := 1, row_count := 1 }] ∧
    dbTwoTables.tables.map (fun t => t.name) = [ "logs", "users"] ∧
    (listTablesHandler dbTwoTables).1 =
      [ { table_name := "logs", column_count := 1 },
        { table_name := "users", column_count := 1 }] := by
  refine ⟨by decide, by decide, by decide⟩

/-- C7 amended: the first table-listing variant reports every base table
(with its column count) and never filters; the second variant computes row
counts and itself drops every table whose row count is zero, keeping
exactly the non-empty tables. -/
theorem c7_listTables_variants (db : DB) :
    (∀ t ∈ db.tables, ∃ e ∈ (listTablesHandler db).1,
        e.table_name = t.name ∧ e.column_count = t.columns.length) ∧
    (∀ e ∈ (listTablesWithCountsHandler db).1, 0 < e.row_count) ∧
    (∀ t ∈ db.tables, t.rows ≠ [] → ∃ e ∈ (listTablesWithCountsHandler db).1,
        e.table_name = t.name ∧ e.column_count = t.columns.length ∧
        e.row_count = t.rows.length) := by
  refine ⟨?_, ?_, ?_⟩
  · intro t ht
    refine ⟨{ table_name := t.name, column_count := t.columns.length }, ?_, rfl, rfl⟩
    show _ ∈ (insSort (fun a b => strLeb a.name b.name) db.tables).map
      (fun t => { table_name := t.name, column_count := t.columns.length : TableEntry })
    exact List.mem_map.mpr ⟨t, (mem_insSort _ _ _).mpr ht, rfl⟩
  · intro e he
    have he2 : e ∈ ((insSort (fun a b => strLeb a.name b.name) db.tables).map
        (fun t => { table_name := t.name, column_count := t.columns.length,
                    row_count := t.rows.length : TableEntryRC })).filter
        (fun e => decide (0 < e.row_count)) := he
    have := (List.mem_filter.mp he2).2
    simpa using this
  · intro t ht hrows
    refine ⟨{ table_name := t.name, column_count := t.columns.length,
              row_count := t.rows.length }, ?_, rfl, rfl, rfl⟩
    show _ ∈ ((insSort (fun a b => strLeb a.name b.name) db.tables).map
        (fun t => { table_name := t.name, column_count := t.columns.length,
                    row_count := t.rows.length : TableEntryRC })).filter
        (fun e => decide (0 < e.row_count))
    refine List.mem_filter.mpr ⟨List.mem_map.mpr ⟨t, (mem_insSort _ _ _).mpr ht, rfl⟩, ?_⟩
    exact decide_eq_true (List.length_pos.mpr hrows)

set_option maxRecDepth 40000 in
/-- C7 witness: the amended statement evaluated on the two-table store. -/
theorem c7_witness :
    (Table.mk "users" [ ⟨ "id", "integer"⟩] [ [ ( "id", .vint 1)]]) ∈ dbTwoTables.tables ∧
    (∃ e ∈ (listTablesHandler dbTwoTables).1, e.table_name = "users" ∧ e.column_count = 1) ∧
    (∀ e ∈ (listTablesWithCountsHandler dbTwoTables).1, 0 < e.row_count) ∧
    (∃ e ∈ (listTablesWithCountsHandler dbTwoTables).1,
      e.table_name = "users" ∧ e.column_count = 1 ∧ e.row_count = 1) :=
  ⟨by decide,
   (c7_listTables_variants dbTwoTables).1
     (Table.mk "users" [ ⟨ "id", "integer"⟩] [ [ ( "id", .vint 1)]]) (by decide),
   (c7_listTables_variants dbTwoTables).2.1,
   (c7_listTables_variants dbTwoTables).2.2
     (Table.mk "users" [ ⟨ "id", "integer"⟩] [ [ ( "id", .vint 1)]]) (by decide) (by decide)⟩

/-! ### Claim C5 -/

/-- Every successful listing response echoes the raw (unclamped) page and
limit, carries a nonnegative total count, and computes totalPages with the
JS ceiling division of that count by that limit. -/
theorem listRowsHandler_ok_shape
    (db : DB) (cf : Bool) (table : String) (page limit : Int)
    (search sb so : String) (body : ListRowsOk)
    (h : (listRowsHandler db cf table page limit search sb so).1 = .ok body) :
    body.page = page ∧ body.limit = limit ∧ 0 ≤ body.totalCount ∧
    body.totalPages = jsCeilDiv body.totalCount limit := by
  simp only [listRowsHandler] at h
  split at h
  · exact absurd h (by simp)
  · simp only [listRowsCore] at h
    split at h
    · exact absurd h (by simp)
    · split at h
      · split at h
        · exact absurd h (by simp)
        · rw [Except.ok.injEq] at h
          rw [← h]
          refine ⟨rfl, rfl, ?_, rfl⟩
          exact Int.natCast_nonneg _
      · exact absurd h (by simp)

set_option maxRecDepth 40000 in
/-- C5 counterexample: the claim says the page parameter is clamped to at
least one before it is used; with the raw page zero the code instead
computes the negative offset minus ten, the data query fails, and the
request surfaces 500 where the clamped reading would return the same 200
page as page one. -/
theorem c5_counterexample_page_zero_not_clamped :
    (listRowsHandler dbUsersOnly false "users" 0 10 "" "id" "ASC").1 = .error 500 ∧
    (listRowsHandler dbUsersOnly false "users" 1 10 "" "id" "ASC").1 =
      .ok { data := [ [ ( "id", .vint 1), ( "name", .vstr "Ann")]],
            columns := [ "id", "name"], page := 1, limit := 10,
            totalCount := 1, totalPages := 1 } ∧
    (0 - 1) * 10 = (-10 : Int) := by
  refine ⟨by decide, by decide, by decide⟩

/-- C5 amended: whenever listRows returns a page with limit positive, its
pagination satisfies the integer-ceiling characterisation
totalPages = ceil(totalCount / limit) (zero when totalCount is zero); the
page value, however, is not clamped: the response echoes the raw parsed
page and the offset is computed from it directly. -/
theorem c5_pagination_ceiling
    (db : DB) (cf : Bool) (table : String) (page limit : Int)
    (search sb so : String) (body : ListRowsOk)
    (hlimit : 0 < limit)
    (h : (listRowsHandler db cf table page limit search sb so).1 = .ok body) :
    body.page = page ∧ body.limit = limit ∧ 0 ≤ body.totalCount ∧
    (body.totalCount = 0 → body.totalPages = 0) ∧
    body.totalCount ≤ body.totalPages * limit ∧
    (body.totalPages - 1) * limit < body.totalCount := by
  obtain ⟨h1, h2, h3, h4⟩ :=
    listRowsHandler_ok_shape db cf table page limit search sb so body h
  obtain ⟨hb1, hb2, hb3⟩ := jsCeilDiv_spec body.totalCount limit hlimit
  refine ⟨h1, h2, h3, ?_, ?_, ?_⟩
  · intro hz
    rw [h4]
    exact hb3 hz
  · rw [h4]
    exact hb1
  · rw [h4]
    exact hb2

set_option maxRecDepth 40000 in
/-- C5 witness: the amended statement evaluated on the one-row users
store at page one, limit ten. -/
theorem c5_witness :
    (0 : Int) < 10 ∧
    (listRowsHandler dbUsersOnly false "users" 1 10 "" "id" "ASC").1 =
      .ok { data := [ [ ( "id", .vint 1), ( "name", .vstr "Ann")]],
            columns := [ "id", "name"], page := 1, limit := 10,
            totalCount := 1, totalPages := 1 } ∧
    ((ListRowsOk.mk [ [ ( "id", .vint 1), ( "name", .vstr "Ann")]]
        [ "id", "name"] 1 10 1 1).page = 1 ∧
     (ListRowsOk.mk [ [ ( "id", .vint 1), ( "name", .vstr "Ann")]]
        [ "id", "name"] 1 10 1 1).limit = 10 ∧
     (0 : Int) ≤ (ListRowsOk.mk [ [ ( "id", .vint 1), ( "name", .vstr "Ann")]]
        [ "id", "name"] 1 10 1 1).totalCount ∧
     ((ListRowsOk.mk [ [ ( "id", .vint 1), ( "name", .vstr "Ann")]]
        [ "id", "name"] 1 10 1 1).totalCount = 0 →
      (ListRowsOk.mk [ [ ( "id", .vint 1), ( "name", .vstr "Ann")]]
        [ "id", "name"] 1 10 1 1).totalPages = 0) ∧
     (ListRowsOk.mk [ [ ( "id", .vint 1), ( "name", .vstr "Ann")]]
        [ "id", "name"] 1 10 1 1).totalCount ≤
       (ListRowsOk.mk [ [ ( "id", .vint 1), ( "name", .vstr "Ann")]]
        [ "id", "name"] 1 10 1 1).totalPages * 10 ∧
     ((ListRowsOk.mk [ [ ( "id", .vint 1), ( "name", .vstr "Ann")]]
        [ "id", "name"] 1 10 1 1).totalPages - 1) * 10 <
       (ListRowsOk.mk [ [ ( "id", .vint 1), ( "name", .vstr "Ann")]]
        [ "id", "name"] 1 10 1 1).totalCount) :=
  ⟨by decide, by decide,
   c5_pagination_ceiling dbUsersOnly false "users" 1 10 "" "id" "ASC"
     (ListRowsOk.mk [ [ ( "id", .vint 1), ( "name", .vstr "Ann")]]
        [ "id", "name"] 1 10 1 1)
     (by decide) (by decide)⟩

/-! ### Claim C8 -/

/-- The default of headD is irrelevant on a non-empty list. -/
theorem headD_mem_of_ne_nil {l : List String} (h : l ≠ []) (d : String) :
    l.headD d ∈ l := by
  cases l with
  | nil => exact absurd rfl h
  | cons a t => simp

/-- On a table with at least one column the chosen sort column is always
one of the table's columns. -/
theorem validSortBy_mem {cols : List String} (h : cols ≠ []) (sb : String) :
    validSortBy cols sb ∈ cols := by
  unfold validSortBy
  by_cases hc : cols.contains sb = true
  · rw [if_pos hc]
    exact List.elem_iff.mp hc
  · rw [if_neg hc]
    exact headD_mem_of_ne_nil h _

/-- The listing core only consults sortBy through validSortBy on the found
table's column names. -/
theorem listRowsCore_congr_sortBy (db : DB) (table : String) (page limit : Int)
    (search so : String) (sb1 sb2 : String)
    (h : ∀ tbl, findTable db table = some tbl →
      validSortBy (tbl.columns.map (fun c => c.column_name)) sb1 =
        validSortBy (tbl.columns.map (fun c => c.column_name)) sb2) :
    listRowsCore db table page limit search sb1 so =
      listRowsCore db table page limit search sb2 so := by
  unfold listRowsCore
  cases hf : findTable db table with
  | none => rfl
  | some tbl => simp only [h tbl hf]

/-- C8: an unknown sortBy falls back to the first declared column — the
whole response equals the one for the first column and the chosen sort
column is the head of the column list — while a known sortBy is used
as-is; in both cases the listing succeeds (benign page and limit given),
never failing because of the sortBy value. -/
theorem c8_sortBy_fallback
    (db : DB) (cf : Bool) (table : String) (page limit : Int)
    (search sortBy so : String) (tbl : Table)
    (hfind : findTable db table = some tbl)
    (hcols : tbl.columns ≠ [])
    (hpage : 1 ≤ page) (hlimit : 0 ≤ limit) :
    (¬ ((tbl.columns.map (fun c => c.column_name)).contains sortBy = true) →
      listRowsHandler db cf table page limit search sortBy so =
        listRowsHandler db cf table page limit search
          ((tbl.columns.map (fun c => c.column_name)).headD "undefined") so ∧
      validSortBy (tbl.columns.map (fun c => c.column_name)) sortBy =
        (tbl.columns.map (fun c => c.column_name)).headD "undefined") ∧
    ((tbl.columns.map (fun c => c.column_name)).contains sortBy = true →
      validSortBy (tbl.columns.map (fun c => c.column_name)) sortBy = sortBy) ∧
    (∃ body, (listRowsHandler db cf table page limit search sortBy so).1 = .ok body) := by
  have hcolsne : (tbl.columns.map (fun c => c.column_name)) ≠ [] := by
    intro heq
    cases hcl : tbl.columns with
    | nil => exact hcols hcl
    | cons a l =>
      rw [hcl] at heq
      simp at heq
  obtain ⟨tbl2, hf2, hname2, hc2, hr2⟩ := runOtpCleanup_findTable cf table hfind
  have hcols2 : tbl2.columns.map (fun c => c.column_name) =
      tbl.columns.map (fun c => c.column_name) := by rw [hc2]
  refine ⟨?_, ?_, ?_⟩
  · intro hns
    have hvs : validSortBy (tbl.columns.map (fun c => c.column_name)) sortBy =
        validSortBy (tbl.columns.map (fun c => c.column_name))
          ((tbl.columns.map (fun c => c.column_name)).headD "undefined") := by
      unfold validSortBy
      rw [if_neg hns]
      rw [if_pos (List.elem_iff.mpr (headD_mem_of_ne_nil hcolsne "undefined"))]
    have hcore := listRowsCore_congr_sortBy (runOtpCleanup db cf table).1 table page limit
      search so sortBy ((tbl.columns.map (fun c => c.column_name)).headD "undefined")
      (by
        intro t2 hft2
        have ht2 : t2 = tbl2 := by
          rw [hft2] at hf2
          exact Option.some.inj hf2
        rw [ht2, hcols2]
        exact hvs)
    constructor
    · simp only [listRowsHandler]
      rw [hcore]
    · unfold validSortBy
      rw [if_neg hns]
  · intro hc
    unfold validSortBy
    rw [if_pos hc]
  · have hemp := filter_isEmpty_false_of_findTable hfind
    simp only [listRowsHandler, hemp, Bool.false_eq_true, if_false]
    simp only [listRowsCore]
    split
    · rename_i heqn
      rw [heqn] at hf2
      exact absurd hf2 (by simp)
    · rename_i t2 heqs
      have ht2 : t2 = tbl2 := by
        rw [heqs] at hf2
        exact Option.some.inj hf2
      have hne2 : t2.columns.map (fun c => c.column_name) ≠ [] := by
        rw [ht2, hcols2]
        exact hcolsne
      have hcont : (t2.columns.map (fun c => c.column_name)).contains
          (validSortBy (t2.columns.map (fun c => c.column_name)) sortBy) = true :=
        List.elem_iff.mpr (validSortBy_mem hne2 sortBy)
      rw [if_pos hcont]
      have happ : applyLimitOffset limit ((page - 1) * limit)
          (sortRowsBy (validSortBy (t2.columns.map (fun c => c.column_name)) sortBy)
            ((if upperStr so == "DESC" then "DESC" else "ASC") == "ASC")
            (filterRows t2.columns search t2.rows)) =
          .ok (((sortRowsBy (validSortBy (t2.columns.map (fun c => c.column_name)) sortBy)
            ((if upperStr so == "DESC" then "DESC" else "ASC") == "ASC")
            (filterRows t2.columns search t2.rows)).drop ((page - 1) * limit).toNat).take
              limit.toNat) := by
        unfold applyLimitOffset
        split
        · rename_i hbad
          have hoff : 0 ≤ (page - 1) * limit := mul_nonneg (by omega) hlimit
          simp only [Bool.or_eq_true, decide_eq_true_eq] at hbad
          omega
        · rfl
      rw [happ]
      exact ⟨_, rfl⟩

set_option maxRecDepth 40000 in
/-- C8 witness: on the users store the unknown sortBy value bogus produces
the exact same successful response as sorting by the first column id. -/
theorem c8_witness :
    ((1 : Int) ≤ 1 ∧ (0 : Int) ≤ 10) ∧
    listRowsHandler dbUsersOnly false "users" 1 10 "" "bogus" "ASC" =
      listRowsHandler dbUsersOnly false "users" 1 10 "" "id" "ASC" ∧
    (∃ body, (listRowsHandler dbUsersOnly false "users" 1 10 "" "bogus" "ASC").1 =
      .ok body) := by
  have h := c8_sortBy_fallback dbUsersOnly false "users" 1 10 "" "bogus" "ASC"
    ⟨ "users", [ ⟨ "id", "integer"⟩, ⟨ "name", "character varying"⟩],
      [ [ ( "id", .vint 1), ( "name", .vstr "Ann")]]⟩
    (by decide) (by decide) (by decide) (by decide)
  exact ⟨⟨by decide, by decide⟩, (h.1 (by decide)).1, h.2.2⟩

/-! ### Claim C6 -/

/-- With no text-like column the search never contributes a condition. -/
theorem searchCondition_no_text {cols : List Column} (h : textColumns cols = [])
    (s : String) : searchCondition cols s = "" := by
  unfold searchCondition
  rw [h]
  simp

/-- With no text-like column the search filters nothing. -/
theorem filterRows_no_text {cols : List Column} (h : textColumns cols = [])
    (s : String) (rows : List Record) : filterRows cols s rows = rows := by
  unfold filterRows
  rw [h]
  simp

/-- With no text-like column the search contributes no parameters. -/
theorem searchParamCount_no_text {cols : List Column} (h : textColumns cols = [])
    (s : String) : searchParamCount cols s = 0 := by
  unfold searchParamCount
  rw [h]
  simp

/-- With no text-like column the whole listing core ignores the search. -/
theorem listRowsCore_search_noop (db : DB) (table : String) (page limit : Int)
    (sortBy so : String) (s : String)
    (h : ∀ tbl, findTable db table = some tbl → textColumns tbl.columns = []) :
    listRowsCore db table page limit s sortBy so =
      listRowsCore db table page limit "" sortBy so := by
  unfold listRowsCore
  cases hf : findTable db table with
  | none => rfl
  | some tbl =>
    have ht := h tbl hf
    simp only [searchCondition_no_text ht, filterRows_no_text ht,
      searchParamCount_no_text ht]

/-- C6 amended: for a non-empty search string free of the LIKE
metacharacters percent, underscore and backslash, every returned row
contains the search string case-insensitively in the rendered value of at
least one column of text-like declared type (so rows without such a match
are excluded and non-text columns never contribute); and when the table
has no text-like column the search predicate is omitted and the response
is identical to the searchless one. -/
theorem c6_search_matches (db : DB) (cf : Bool) (table : String) (page limit : Int)
    (s sortBy so : String) (tbl : Table)
    (hfind : findTable db table = some tbl)
    (hs : s ≠ "")
    (hfree : specialFree s) :
    (∀ body r, (listRowsHandler db cf table page limit s sortBy so).1 = .ok body →
      r ∈ body.data → textColumns tbl.columns ≠ [] →
      ∃ c ∈ tbl.columns, textTypes.contains c.data_type = true ∧
        ∃ v txt, getCol r c.column_name = some v ∧ renderValue v = some txt ∧
          containsCI s txt = true) ∧
    (textColumns tbl.columns = [] →
      listRowsHandler db cf table page limit s sortBy so =
        listRowsHandler db cf table page limit "" sortBy so) := by
  obtain ⟨tbl2, hf2, hname2, hc2, hr2⟩ := runOtpCleanup_findTable cf table hfind
  constructor
  · intro body r hres hr htext
    simp only [listRowsHandler] at hres
    split at hres
    · exact absurd hres (by simp)
    · simp only [listRowsCore] at hres
      split at hres
      · exact absurd hres (by simp)
      · rename_i t2 heqs
        have ht2 : t2 = tbl2 := by
          rw [heqs] at hf2
          exact Option.some.inj hf2
        split at hres
        · split at hres
          · exact absurd hres (by simp)
          · rename_i rows happ
            rw [Except.ok.injEq] at hres
            have hdata : body.data = rows := by rw [← hres]
            rw [hdata] at hr
            have hsorted : r ∈ sortRowsBy
                (validSortBy (t2.columns.map (fun c => c.column_name)) sortBy)
                ((if upperStr so == "DESC" then "DESC" else "ASC") == "ASC")
                (filterRows t2.columns s t2.rows) := by
              unfold applyLimitOffset at happ
              split at happ
              · exact absurd happ (by simp)
              · rw [Except.ok.injEq] at happ
                rw [← happ] at hr
                exact List.drop_subset _ _ (List.take_subset _ _ hr)
            have hrfil : r ∈ filterRows t2.columns s t2.rows := by
              unfold sortRowsBy at hsorted
              split at hsorted
              · exact (mem_insSort _ _ _).mp hsorted
              · exact (mem_insSort _ _ _).mp hsorted
            have htext2 : textColumns t2.columns ≠ [] := by
              rw [ht2, hc2]
              exact htext
            have hcond : ¬ ((s == "" || (textColumns t2.columns).isEmpty) = true) := by
              simp only [Bool.or_eq_true, beq_iff_eq, List.isEmpty_iff]
              rintro (h | h)
              · exact hs h
              · exact htext2 h
            unfold filterRows at hrfil
            rw [if_neg hcond] at hrfil
            have hmatch := (List.mem_filter.mp hrfil).2
            unfold rowMatchesSearch at hmatch
            obtain ⟨c, hcmem, hcm⟩ := List.any_eq_true.mp hmatch
            have hcin : c ∈ t2.columns ∧ textTypes.contains c.data_type = true := by
              unfold textColumns at hcmem
              exact List.mem_filter.mp hcmem
            have hcin1 : c ∈ tbl.columns := by
              have hx := hcin.1
              rw [ht2, hc2] at hx
              exact hx
            refine ⟨c, hcin1, hcin.2, ?_⟩
            unfold colMatches at hcm
            cases hg : getCol r c.column_name with
            | none =>
              rw [hg] at hcm
              simp at hcm
            | some v =>
              rw [hg] at hcm
              have hcm2 : (match renderValue v with
                  | none => false
                  | some txt => ilike ("%" ++ s ++ "%") txt) = true := hcm
              cases hrv : renderValue v with
              | none =>
                rw [hrv] at hcm2
                simp at hcm2
              | some txt =>
                rw [hrv] at hcm2
                have hcm3 : ilike ("%" ++ s ++ "%") txt = true := hcm2
                refine ⟨v, txt, rfl, hrv, ?_⟩
                exact (ilike_wrapped_iff txt hfree).mp hcm3
        · exact absurd hres (by simp)
  · intro htext0
    have hnoop := listRowsCore_search_noop (runOtpCleanup db cf table).1 table page limit
      sortBy so s
      (by
        intro t2 hft2
        have ht2 : t2 = tbl2 := by
          rw [hft2] at hf2
          exact Option.some.inj hf2
        rw [ht2, hc2]
        exact htext0)
    simp only [listRowsHandler]
    rw [hnoop]

set_option maxRecDepth 40000 in
/-- C6 counterexample: with the search string percent — which the claim
quantifies over — the single row abc is returned although no text column
contains the search string as a substring: the pattern percent wrapped in
percents matches everything. -/
theorem c6_counterexample_wildcard_search :
    (listRowsHandler dbSearchWild false "users" 1 10 "%" "name" "ASC").1 =
      .ok { data := [ [ ( "name", .vstr "abc")]], columns := [ "name"],
            page := 1, limit := 10, totalCount := 1, totalPages := 1 } ∧
    containsCI "%" "abc" = false ∧
    textTypes.contains "character varying" = true := by
  refine ⟨by decide, by decide, by decide⟩

set_option maxRecDepth 40000 in
/-- C6 witness: the amended statement evaluated for the search string an
on the two-row users store. -/
theorem c6_witness :
    ( "an" : String) ≠ "" ∧
    specialFree "an" ∧
    findTable dbSearchPlain "users" =
      some ⟨ "users", [ ⟨ "id", "integer"⟩, ⟨ "name", "character varying"⟩],
        [ [ ( "id", .vint 1), ( "name", .vstr "Banana")],
          [ ( "id", .vint 2), ( "name", .vstr "Bob")]]⟩ ∧
    ((∀ body r,
        (listRowsHandler dbSearchPlain false "users" 1 10 "an" "id" "ASC").1 = .ok body →
        r ∈ body.data →
        textColumns (Table.mk "users"
          [ ⟨ "id", "integer"⟩, ⟨ "name", "character varying"⟩]
          [ [ ( "id", .vint 1), ( "name", .vstr "Banana")],
            [ ( "id", .vint 2), ( "name", .vstr "Bob")]]).columns ≠ [] →
        ∃ c ∈ (Table.mk "users"
            [ ⟨ "id", "integer"⟩, ⟨ "name", "character varying"⟩]
            [ [ ( "id", .vint 1), ( "name", .vstr "Banana")],
              [ ( "id", .vint 2), ( "name", .vstr "Bob")]]).columns,
          textTypes.contains c.data_type = true ∧
          ∃ v txt, getCol r c.column_name = some v ∧ renderValue v = some txt ∧
            containsCI "an" txt = true) ∧
     (textColumns (Table.mk "users"
          [ ⟨ "id", "integer"⟩, ⟨ "name", "character varying"⟩]
          [ [ ( "id", .vint 1), ( "name", .vstr "Banana")],
            [ ( "id", .vint 2), ( "name", .vstr "Bob")]]).columns = [] →
        listRowsHandler dbSearchPlain false "users" 1 10 "an" "id" "ASC" =
          listRowsHandler dbSearchPlain false "users" 1 10 "" "id" "ASC")) :=
  ⟨by decide,
   (by decide : ∀ c ∈ ("an" : String).toList, c ≠ '%' ∧ c ≠ '_' ∧ c ≠ '\\'),
   by decide,
   c6_search_matches dbSearchPlain false "users" 1 10 "an" "id" "ASC"
     ⟨ "users", [ ⟨ "id", "integer"⟩, ⟨ "name", "character varying"⟩],
       [ [ ( "id", .vint 1), ( "name", .vstr "Banana")],
         [ ( "id", .vint 2), ( "name", .vstr "Bob")]]⟩
     (by decide) (by decide)
     (by decide : ∀ c ∈ ("an" : String).toList, c ≠ '%' ∧ c ≠ '_' ∧ c ≠ '\\')⟩

/-! ### Claim C9 -/

set_option maxRecDepth 40000 in
/-- C9 counterexample: on a store whose otps table holds one stale and one
fresh row, the listing result differs between a failing and a succeeding
cleanup, because a successful cleanup deletes the stale row before the
read; the claim asserts the results are the same. -/
theorem c9_counterexample_cleanup_changes_listing :
    (listRowsHandler dbOtps true "otps" 1 10 "" "id" "ASC").1 =
      .ok { data := [ [ ( "id", .vint 1), ( "created_at", .vint 0)],
                      [ ( "id", .vint 2), ( "created_at", .vint 299000)]],
            columns := [ "id", "created_at"], page := 1, limit := 10,
            totalCount := 2, totalPages := 1 } ∧
    (listRowsHandler dbOtps false "otps" 1 10 "" "id" "ASC").1 =
      .ok { data := [ [ ( "id", .vint 2), ( "created_at", .vint 299000)]],
            columns := [ "id", "created_at"], page := 1, limit := 10,
            totalCount := 1, totalPages := 1 } := by
  refine ⟨by decide, by decide⟩

/-- C9 amended: for a table other than otps (case-insensitively) the
cleanup flag has no effect at all; for otps, rows older than three days
are deleted first when the DELETE succeeds, the failure of the DELETE is
swallowed, and either way the handler proceeds to execute the same primary
read on the store state the cleanup attempt left behind (so the result
reflects the deleted rows when the cleanup succeeded). -/
theorem c9_otp_cleanup (db : DB) (table id : String) (page limit : Int)
    (search sb so : String) :
    (lowerStr table ≠ "otps" →
      listRowsHandler db true table page limit search sb so =
        listRowsHandler db false table page limit search sb so ∧
      resolveHandler db true table id = resolveHandler db false table id) ∧
    (lowerStr table = "otps" →
      (∀ tbl, findTable db table = some tbl →
        listRowsHandler db true table page limit search sb so =
          ((listRowsCore db table page limit search sb so).1,
           tableCheckQuery :: otpCleanupQuery ::
             (listRowsCore db table page limit search sb so).2) ∧
        listRowsHandler db false table page limit search sb so =
          ((listRowsCore (deleteOldOtps db) table page limit search sb so).1,
           tableCheckQuery :: otpCleanupQuery ::
             (listRowsCore (deleteOldOtps db) table page limit search sb so).2)) ∧
      resolveHandler db true table id =
        ((resolveCore db table id).1, otpCleanupQuery :: (resolveCore db table id).2) ∧
      resolveHandler db false table id =
        ((resolveCore (deleteOldOtps db) table id).1,
         otpCleanupQuery :: (resolveCore (deleteOldOtps db) table id).2)) ∧
    (∀ tbl, findTable db "otps" = some tbl →
      tbl.columns.any (fun c => c.column_name == "created_at") = true →
      ∃ tbl2, findTable (deleteOldOtps db) "otps" = some tbl2 ∧
        tbl2.columns = tbl.columns ∧
        ∀ r, r ∈ tbl2.rows ↔ (r ∈ tbl.rows ∧ rowIsOldOtp db r = false)) := by
  refine ⟨?_, ?_, ?_⟩
  · intro hne
    have hbeq : (lowerStr table == "otps") = false := beq_eq_false_iff_ne.mpr hne
    constructor
    · simp only [listRowsHandler, runOtpCleanup, hbeq, Bool.false_eq_true, if_false]
    · simp only [resolveHandler, runOtpCleanup, hbeq, Bool.false_eq_true, if_false]
  · intro heq
    have hbeq : (lowerStr table == "otps") = true := beq_iff_eq.mpr heq
    refine ⟨?_, ?_, ?_⟩
    · intro tbl hfind
      have hemp := filter_isEmpty_false_of_findTable hfind
      constructor
      · simp only [listRowsHandler, runOtpCleanup, hbeq, if_true, hemp,
          Bool.false_eq_true, if_false]
        rfl
      · simp only [listRowsHandler, runOtpCleanup, hbeq, if_true, hemp,
          Bool.false_eq_true, if_false]
        rfl
    · simp only [resolveHandler, runOtpCleanup, hbeq, if_true]
      rfl
    · simp only [resolveHandler, runOtpCleanup, hbeq, if_true]
      rfl
  · intro tbl hfind hcreated
    have hfind2 := hfind
    unfold findTable at hfind2
    have hnameb : (tbl.name == "otps") = true :=
      @List.find?_some Table (fun x => x.name == "otps") tbl db.tables hfind2
    refine ⟨cleanOtpTable db tbl, ?_, cleanOtpTable_columns db tbl, ?_⟩
    · rw [findTable_deleteOldOtps, hfind]
      rfl
    · intro r
      unfold cleanOtpTable
      rw [if_pos (by simp [hnameb, hcreated] : (tbl.name == "otps" &&
        tbl.columns.any fun c => c.column_name == "created_at") = true)]
      simp [List.mem_filter, Bool.not_eq_true']

set_option maxRecDepth 40000 in
/-- C9 witness: the amended statement evaluated on the otps store. -/
theorem c9_witness :
    lowerStr "otps" = "otps" ∧
    findTable dbOtps "otps" =
      some ⟨ "otps", [ ⟨ "id", "integer"⟩, ⟨ "created_at", "timestamp with time zone"⟩],
        [ [ ( "id", .vint 1), ( "created_at", .vint 0)],
          [ ( "id", .vint 2), ( "created_at", .vint 299000)]]⟩ ∧
    listRowsHandler dbOtps true "otps" 1 10 "" "id" "ASC" =
      ((listRowsCore dbOtps "otps" 1 10 "" "id" "ASC").1,
       tableCheckQuery :: otpCleanupQuery ::
         (listRowsCore dbOtps "otps" 1 10 "" "id" "ASC").2) ∧
    resolveHandler dbOtps false "otps" "2" =
      ((resolveCore (deleteOldOtps dbOtps) "otps" "2").1,
       otpCleanupQuery :: (resolveCore (deleteOldOtps dbOtps) "otps" "2").2) ∧
    (∃ tbl2, findTable (deleteOldOtps dbOtps) "otps" = some tbl2 ∧
      tbl2.columns =
        [ ⟨ "id", "integer"⟩, ⟨ "created_at", "timestamp with time zone"⟩] ∧
      ∀ r, r ∈ tbl2.rows ↔
        (r ∈ [ [ ( "id", .vint 1), ( "created_at", .vint 0)],
               [ ( "id", .vint 2), ( "created_at", .vint 299000)]] ∧
         rowIsOldOtp dbOtps r = false)) := by
  have h := c9_otp_cleanup dbOtps "otps" "2" 1 10 "" "id" "ASC"
  have hb := h.2.1 (by decide)
  refine ⟨by decide, by decide, ?_, hb.2.2, ?_⟩
  · exact (hb.1 ⟨ "otps",
      [ ⟨ "id", "integer"⟩, ⟨ "created_at", "timestamp with time zone"⟩],
      [ [ ( "id", .vint 1), ( "created_at", .vint 0)],
        [ ( "id", .vint 2), ( "created_at", .vint 299000)]]⟩ (by decide)).1
  · exact h.2.2 ⟨ "otps",
      [ ⟨ "id", "integer"⟩, ⟨ "created_at", "timestamp with time zone"⟩],
      [ [ ( "id", .vint 1), ( "created_at", .vint 0)],
        [ ( "id", .vint 2), ( "created_at", .vint 299000)]]⟩ (by decide) (by decide)
